import Mathlib

/-!
Verification development for the `LinearlyVariableInfill` Cura post-processing
script (`LinearlyVariableInfill.py`).  The script's numeric computations use
Python floats; they are embedded here as exact rationals (`ℚ`).  Python's
`** 0.5` is embedded as `pysqrt`, which is exact whenever its argument is the
square of a rational (every concrete input used below is chosen that way).
Fallible Python operations (division by zero, `float('')`, `min` of an empty
sequence, use of an unbound local) are embedded with `Except Err`.
-/

namespace LVI

/-- Python runtime faults that the script can raise.  `unboundLocal` covers
every read of an `execute` local before its first assignment
(`perimeterSegments` before a `;LAYER:` line, `current_speed` before a fill
feed line): Python raises `UnboundLocalError` for unassigned function
locals. -/
inductive Err where
  | syntaxError
  | valueError
  | zeroDivision
  | unboundLocal
deriving DecidableEq, Repr

/-- `Point2D = namedtuple('Point2D', 'x y')`. -/
structure Point2D where
  x : ℚ
  y : ℚ
deriving DecidableEq, Repr

/-- `Segment = namedtuple('Segment', 'point1 point2')`. -/
structure Segment where
  point1 : Point2D
  point2 : Point2D
deriving DecidableEq, Repr

/-- `class Section(Enum)` from the script. -/
inductive Section where
  | NOTHING
  | INNER_WALL
  | OUTER_WALL
  | INFILL
deriving DecidableEq, Repr

/-- Binary search for the integer square root: the largest `r` in `[lo, hi]`
with `r * r ≤ n`, assuming `lo * lo ≤ n`.  The fuel bounds the number of
halvings; 96 suffices for every `n < 2^95`. -/
def isqrtAux (n : ℕ) : ℕ → ℕ → ℕ → ℕ
  | 0, lo, _ => lo
  | fuel+1, lo, hi =>
    if hi ≤ lo then lo
    else
      let mid := (lo + hi + 1) / 2
      if mid * mid ≤ n then isqrtAux n fuel mid hi else isqrtAux n fuel lo (mid - 1)

/-- Integer square root (exact for the sizes this development evaluates). -/
def isqrt (n : ℕ) : ℕ := isqrtAux n 96 0 n

/-- Embedding of Python's `x ** 0.5` on a nonnegative rational: exact whenever
`q` is the square of a rational (numerator and denominator perfect squares),
which holds for all concrete inputs used in this development. -/
def pysqrt (q : ℚ) : ℚ :=
  (isqrt q.num.toNat : ℚ) / (isqrt q.den : ℚ)

/-- Embedding of Python's `int(...)` applied to a float: truncation toward 0. -/
def pytrunc (q : ℚ) : ℤ :=
  if q < 0 then -(⌊-q⌋) else ⌊q⌋

/-- Round-half-to-even to an integer, as Python's builtin `round` does. -/
def rhe (q : ℚ) : ℤ :=
  let f := ⌊q⌋
  let r := q - (f : ℚ)
  if r < 1/2 then f
  else if 1/2 < r then f + 1
  else if f % 2 = 0 then f else f + 1

/-- Embedding of Python's `round(x, d)` (half-even at the `d`-th decimal). -/
def round_py (d : ℕ) (q : ℚ) : ℚ :=
  (rhe (q * (10:ℚ)^d) : ℚ) / (10:ℚ)^d

/-- Digits of a decimal fraction in `[0,1)`, most significant first (`fuel`
bounds the number of digits; every value formatted by the script terminates
well within it). -/
def fracDigits : ℕ → ℚ → String
  | 0, _ => ""
  | fuel+1, q =>
    if q = 0 then ""
    else
      let q10 := q * 10
      let d := ⌊q10⌋
      toString d ++ fracDigits fuel (q10 - (d : ℚ))

/-- Decimal rendering of a nonnegative rational in Python `str(float)` style
(always at least one fractional digit, so `5` renders as `"5.0"`). -/
def ratToStrNN (q : ℚ) : String :=
  let ip := ⌊q⌋
  let fp := q - (ip : ℚ)
  toString ip ++ "." ++ (if fp = 0 then "0" else fracDigits 25 fp)

/-- Python `str(...)` of a float value, for the terminating decimals the script
produces. -/
def ratToStr (q : ℚ) : String :=
  if q < 0 then "-" ++ ratToStrNN (-q) else ratToStrNN q

/-- Numeric value of a digit string. -/
def digitsVal (l : List Char) : ℕ :=
  l.foldl (fun a c => 10 * a + (c.toNat - 48)) 0

/-- Core of `parseNum`: an unsigned decimal numeral `\d*\.?\d*` with at least
one digit, as accepted by Python's `float`. -/
def parseCore (l : List Char) : Option ℚ :=
  let d1 := l.takeWhile Char.isDigit
  let r1 := l.drop d1.length
  match r1 with
  | [] => if d1.isEmpty then none else some ((digitsVal d1 : ℚ))
  | '.' :: r2 =>
    let d2 := r2.takeWhile Char.isDigit
    let r3 := r2.drop d2.length
    if r3.isEmpty then
      if d1.length + d2.length = 0 then none
      else some ((digitsVal d1 : ℚ) + (digitsVal d2 : ℚ) / (10:ℚ)^d2.length)
    else none
  | _ => none

/-- Embedding of Python's `float(s)` on the strings the script feeds to it
(an optional sign followed by a decimal numeral); `none` models `ValueError`. -/
def parseNum (s : String) : Option ℚ :=
  match s.toList with
  | '-' :: rest => (parseCore rest).map (fun q => -q)
  | '+' :: rest => parseCore rest
  | l => parseCore l

/-- The capture of the regular expressions `X(\d*\.?\d*)` etc.: the maximal
`digits, optional dot, digits` run. -/
def captureTail (l : List Char) : List Char :=
  let d1 := l.takeWhile Char.isDigit
  let r1 := l.drop d1.length
  match r1 with
  | '.' :: r2 => d1 ++ ['.'] ++ r2.takeWhile Char.isDigit
  | _ => d1

/-- `re.search(r"C(\d*\.?\d*)", s)` for a letter `C`: the capture group of the
first match, or `none` when the letter does not occur. -/
def capAfter (c : Char) (s : String) : Option String :=
  match s.toList.dropWhile (fun a => a ≠ c) with
  | [] => none
  | _ :: rest => some (String.mk (captureTail rest))

/-- Whether `p` is an initial run of `l`. -/
def leadsWith : List Char → List Char → Bool
  | [], _ => true
  | _ :: _, [] => false
  | a :: as, b :: bs => a = b && leadsWith as bs

/-- Whether `pat` occurs contiguously inside `l`. -/
def occursIn (pat : List Char) : List Char → Bool
  | [] => pat.isEmpty
  | b :: bs => leadsWith pat (b :: bs) || occursIn pat bs

/-- Python's `pat in line` substring test. -/
def hasSub (line pat : String) : Bool :=
  occursIn pat.toList line.toList

/-- `dist`: distance from a point to a finite segment.  The division by
`float(norm)` raises `ZeroDivisionError` when the segment is degenerate. -/
def dist (segment : Segment) (point : Point2D) : Except Err ℚ :=
  let px := segment.point2.x - segment.point1.x
  let py := segment.point2.y - segment.point1.y
  let norm := px * px + py * py
  if norm = 0 then .error .zeroDivision
  else
    let u0 := ((point.x - segment.point1.x) * px + (point.y - segment.point1.y) * py) / norm
    let u := if u0 > 1 then 1 else if u0 < 0 then 0 else u0
    let x := segment.point1.x + u * px
    let y := segment.point1.y + u * py
    let dx := x - point.x
    let dy := y - point.y
    .ok (pysqrt (dx * dx + dy * dy))

/-- `two_points_distance`: euclidean distance between two points. -/
def two_points_distance (point1 point2 : Point2D) : ℚ :=
  pysqrt ((point1.x - point2.x)^2 + (point1.y - point2.y)^2)

/-- `min_distance_to_segment`: minimum distance from the midpoint of
`segment` to the segments of `segments`; `min` of an empty sequence raises
`ValueError`. -/
def min_distance_to_segment (segment : Segment) (segments : List Segment) :
    Except Err ℚ :=
  let middlePoint : Point2D :=
    ⟨(segment.point1.x + segment.point2.x) / 2, (segment.point1.y + segment.point2.y) / 2⟩
  match segments with
  | [] => .error .valueError
  | s :: rest => do
    let d0 ← dist s middlePoint
    rest.foldlM (fun acc sg => do
      let d ← dist sg middlePoint
      pure (min acc d)) d0

/-- `getXY`: parse the X and Y fields of a gcode line.  A missing axis letter
raises `SyntaxError`; an axis letter followed by no numeral (e.g. a sign)
makes `float('')` raise `ValueError`. -/
def getXY (currentLineINcode : String) : Except Err Point2D :=
  match capAfter 'X' currentLineINcode, capAfter 'Y' currentLineINcode with
  | some elementX, some elementY =>
    match parseNum elementX with
    | none => .error .valueError
    | some vx =>
      match parseNum elementY with
      | none => .error .valueError
      | some vy => .ok ⟨vx, vy⟩
  | _, _ => .error .syntaxError

/-- `gcode_template`: format a motion line, rounding coordinates to 3 and
extrusion to 5 decimal places. -/
def gcode_template (x y extrusion : ℚ) : String :=
  "G1 X" ++ ratToStr (round_py 3 x) ++ " Y" ++ ratToStr (round_py 3 y) ++
    " E" ++ ratToStr (round_py 5 extrusion)

/-- `is_layer`. -/
def is_layer (line : String) : Bool := line.startsWith ";LAYER:"

/-- `is_innerwall`. -/
def is_innerwall (line : String) : Bool := line.startsWith ";TYPE:WALL-INNER"

/-- `is_outerwall`. -/
def is_outerwall (line : String) : Bool := line.startsWith ";TYPE:WALL-OUTER"

/-- `ez_nyomtatasi_vonal`: a standard printing move. -/
def ez_nyomtatasi_vonal (line : String) : Bool :=
  hasSub line "G1" && hasSub line " X" && hasSub line "Y" && hasSub line "E"

/-- `is_infill`. -/
def is_infill (line : String) : Bool := line.startsWith ";TYPE:FILL"

/-- `fill_type`: 1 for the linear-style patterns, 0 otherwise. -/
def fill_type (Mode : String) : ℕ :=
  let iMode := 0
  let iMode := if Mode = "grid" then 1 else iMode
  let iMode := if Mode = "lines" then 1 else iMode
  let iMode := if Mode = "triangles" then 1 else iMode
  let iMode := if Mode = "trihexagon" then 1 else iMode
  let iMode := if Mode = "cubic" then 1 else iMode
  let iMode := if Mode = "cubicsubdiv" then 0 else iMode
  let iMode := if Mode = "tetrahedral" then 1 else iMode
  let iMode := if Mode = "quarter_cubic" then 1 else iMode
  let iMode := if Mode = "concentric" then 0 else iMode
  let iMode := if Mode = "zigzag" then 0 else iMode
  let iMode := if Mode = "cross" then 0 else iMode
  let iMode := if Mode = "cross_3d" then 0 else iMode
  let iMode := if Mode = "gyroid" then 0 else iMode
  iMode

/-- The run parameters `execute` reads before scanning any layer:
`divisionNR` and the speed factors are integer settings (the factors already
divided by 100), `variableSegmentLength` a float setting, and
`infill_pattern` / `zig_zaggify_infill` the selected extruder's properties. -/
structure Config where
  division_nr : ℚ
  variable_segment_lengh : ℚ
  variable_speed : Bool
  max_speed_factor : ℚ
  min_speed_factor : ℚ
  infillpattern : String
  connectinfill : Bool
deriving Repr

/-- The mutable locals of `execute` that persist across lines and layers.
`perimeterSegments` is `none` until the first `;LAYER:` line binds it
(referencing it before that raises `NameError`); `current_speed` is `none`
until the first `G1 ... F...` line of a fill section binds it (using it
before that raises `UnboundLocalError`). -/
structure St where
  currentSection : Section
  lastPosition : Point2D
  perimeterSegments : Option (List Segment)
  current_speed : Option ℚ
deriving Repr

/-- The initial cursor state of `execute` (lines 374-375). -/
def initSt : St :=
  { currentSection := .NOTHING
    lastPosition := ⟨-10000, -10000⟩
    perimeterSegments := none
    current_speed := none }

/-- The three speed-grading `if`s of the subdivision loop (lines 473-481 and
489-498), applied to the running `segmentSpeed` value `base`: the leading
ramp, the plateau, and the trailing ramp, evaluated in that order so that a
later branch overrides an earlier one; the trailing branch also advances the
trailing counter `last_step_number`. -/
def stepSpeed (current_speed minF maxF speed_deficit division_nr segmentSteps : ℚ)
    (base : ℚ) (step_number last_step_number : ℕ) : ℚ × ℕ :=
  let s := base
  let s := if (step_number : ℚ) < division_nr
           then current_speed * minF + speed_deficit * (step_number : ℚ) else s
  let s := if (step_number : ℚ) ≥ division_nr then current_speed * maxF else s
  if (step_number : ℚ) ≥ segmentSteps - division_nr then
    (current_speed * maxF - speed_deficit * (last_step_number : ℚ), last_step_number + 1)
  else (s, last_step_number)

/-- The loop-carried locals of the subdivision loop (lines 461-505):
cursor position, running extrusion accumulator `E_inCode_last`, the two ramp
counters, the last value assigned to `stringFeed`, and the motion lines
emitted so far. -/
structure LoopSt where
  lastPos : Point2D
  eLast : ℚ
  sn : ℕ
  ln : ℕ
  feedStr : String
  out : List String
deriving Repr

/-- One iteration of the subdivision loop (lines 461-505): advance the cursor
by the step vector, accumulate extrusion, query the wall index for the
nearest-wall distance (raising `ValueError` on an empty index), grade the
step's feed rate, and emit one motion line. -/
def subdivStep (cfg : Config) (perimeterSegments : List Segment)
    (current_speed : ℚ) (dirStep : Point2D) (dE speed_deficit segmentSteps : ℚ)
    (s : LoopSt) : Except Err LoopSt := do
  let segmentEnd : Point2D := ⟨s.lastPos.x + dirStep.x, s.lastPos.y + dirStep.y⟩
  let extrudeLength := s.eLast + dE
  let shortestDistance ← min_distance_to_segment ⟨s.lastPos, segmentEnd⟩ perimeterSegments
  let graded : ℕ × String :=
    if shortestDistance < cfg.variable_segment_lengh then
      let segmentSpeed := current_speed
      if cfg.variable_speed then
        let sp := stepSpeed current_speed cfg.min_speed_factor cfg.max_speed_factor
          speed_deficit cfg.division_nr segmentSteps segmentSpeed s.sn s.ln
        (sp.2, " F" ++ toString (pytrunc sp.1))
      else (s.ln, s.feedStr)
    else
      let segmentSpeed := current_speed * cfg.min_speed_factor
      if cfg.variable_speed then
        let sp := stepSpeed current_speed cfg.min_speed_factor cfg.max_speed_factor
          speed_deficit cfg.division_nr segmentSteps segmentSpeed s.sn s.ln
        (sp.2, " F" ++ toString (pytrunc sp.1))
      else (s.ln, s.feedStr)
  pure { lastPos := segmentEnd
         eLast := extrudeLength
         sn := s.sn + 1
         ln := graded.1
         feedStr := graded.2
         out := s.out ++ [gcode_template segmentEnd.x segmentEnd.y extrudeLength ++ graded.2] }

/-- `for step in range(int(segmentSteps))`: iterate `subdivStep`. -/
def subdivLoop (cfg : Config) (perimeterSegments : List Segment)
    (current_speed : ℚ) (dirStep : Point2D) (dE speed_deficit segmentSteps : ℚ) :
    ℕ → LoopSt → Except Err LoopSt
  | 0, s => .ok s
  | n+1, s => do
    let s2 ← subdivStep cfg perimeterSegments current_speed dirStep dE speed_deficit segmentSteps s
    subdivLoop cfg perimeterSegments current_speed dirStep dE speed_deficit segmentSteps n s2

/-- The closing line emitted after the subdivision loop (lines 508-510):
the original target coordinates and extrusion run through `gcode_template`
(3- and 5-decimal rounding) with feed `int(current_speed * min_speed_factor)`. -/
def closingLine (currentPosition : Point2D) (E_inCode current_speed minF : ℚ) : String :=
  gcode_template currentPosition.x currentPosition.y E_inCode ++
    " F" ++ toString (pytrunc (current_speed * minF))

/-- The whole subdivided-move emission (lines 459-510): the loop's lines
followed by the mandatory closing line; returns the emitted lines and the
final cursor position the loop leaves behind. -/
def subdivEmit (cfg : Config) (perimeterSegments : List Segment)
    (current_speed : ℚ) (dirStep : Point2D) (dE speed_deficit segmentSteps : ℚ)
    (n : ℕ) (init : LoopSt) (currentPosition : Point2D) (E_inCode : ℚ) :
    Except Err (List String × Point2D) := do
  let s ← subdivLoop cfg perimeterSegments current_speed dirStep dE speed_deficit segmentSteps n init
  .ok (s.out ++ [closingLine currentPosition E_inCode current_speed cfg.min_speed_factor],
       s.lastPos)

/-- The fill-move transformation (lines 442-523), invoked on a fill-section
motion line carrying X, Y and E.  Returns the text written into the line's
slot and the value `lastPosition` holds right after the block.  The guards
mirror Python's fault points in source order: `float` of the E field
(line 445), the divisions at lines 448, 449 and 451, the unconditional read
of `current_speed` (line 452), and the read of `perimeterSegments` inside the
loop (line 464). -/
def fillMove (cfg : Config) (walls : Option (List Segment)) (cs : Option ℚ)
    (lastPosition currentPosition : Point2D) (splitLine : List String)
    (newLineHead : String) : Except Err (String × Point2D) :=
  match (splitLine.filter (fun element => hasSub element "E")).getLast? with
  | none => .error .unboundLocal
  | some element =>
    match parseNum (element.drop 1) with
    | none => .error .valueError
    | some E_inCode =>
      let fullSegmentLength := two_points_distance lastPosition currentPosition
      let littleSegmentLength := cfg.variable_segment_lengh / cfg.division_nr
      if littleSegmentLength = 0 then .error .zeroDivision
      else
        let segmentSteps := fullSegmentLength / littleSegmentLength
        if segmentSteps = 0 then .error .zeroDivision
        else
          let extrudeLengthPERsegment := (0.006584 * fullSegmentLength) / segmentSteps
          let E_inCode_last := E_inCode - extrudeLengthPERsegment * segmentSteps
          if fullSegmentLength = 0 then .error .zeroDivision
          else
            let dirStep : Point2D :=
              ⟨(currentPosition.x - lastPosition.x) / fullSegmentLength * littleSegmentLength,
               (currentPosition.y - lastPosition.y) / fullSegmentLength * littleSegmentLength⟩
            match cs with
            | none => .error .unboundLocal
            | some current_speed =>
              if cfg.division_nr = 0 then .error .zeroDivision
              else
                let speed_deficit := (current_speed * cfg.max_speed_factor +
                  current_speed * cfg.min_speed_factor) / cfg.division_nr
                if segmentSteps ≥ 2 then
                  match walls with
                  | none => .error .unboundLocal
                  | some perimeterSegments => do
                    let (ls, lp) ← subdivEmit cfg perimeterSegments current_speed dirStep
                      extrudeLengthPERsegment speed_deficit segmentSteps
                      (pytrunc segmentSteps).toNat
                      { lastPos := lastPosition, eLast := E_inCode_last,
                        sn := 0, ln := 0, feedStr := "", out := [] }
                      currentPosition E_inCode
                    .ok (newLineHead ++ String.join (ls.map (· ++ "\n")), lp)
                else
                  let outPutLine := splitLine.foldl (fun acc element =>
                    if hasSub element "E" then
                      acc ++ "E" ++ ratToStr (round_py 5 E_inCode)
                    else acc ++ element ++ " ") ""
                  .ok (outPutLine, lastPosition)

/-- The marker scans at the top of the line loop (lines 403-411). -/
def applyMarkers (st : St) (line : String) : St :=
  let st := if is_layer line then { st with perimeterSegments := some [] } else st
  let st := if is_innerwall line then { st with currentSection := .INNER_WALL } else st
  if is_outerwall line then { st with currentSection := .OUTER_WALL } else st

/-- Inner-wall segment recording (lines 414-417).  Python evaluates the
`perimeterSegments.append` attribute before the `getXY` argument, so an
unbound wall list raises `UnboundLocalError` first. -/
def innerWallRecord (st : St) (line : String) : Except Err St :=
  if st.currentSection = .INNER_WALL ∧ ez_nyomtatasi_vonal line then
    match st.perimeterSegments with
    | none => .error .unboundLocal
    | some segs => do
      let p ← getXY line
      .ok { st with perimeterSegments := some (segs ++ [⟨p, st.lastPosition⟩]) }
  else .ok st

/-- The fill-section feed-rate line (lines 428-435): `F` and `G1` present
makes the regex search succeed at the first `F`, so the only fault is
`float('')` when the `F` is not followed by a numeral; on success
`current_speed` is (re)bound and `new_Line` becomes `"G1 F{speed}\n"`. -/
def infillFeedLine (st : St) (line : String) : Except Err (St × String) :=
  if hasSub line "F" ∧ hasSub line "G1" then
    match capAfter 'F' line with
    | none => .ok (st, "")
    | some captured =>
      match parseNum captured with
      | none => .error .valueError
      | some v => .ok ({ st with current_speed := some v }, "G1 F" ++ ratToStr v ++ "\n")
  else .ok (st, "")

/-- The fill-section motion line (lines 437-523): parse the coordinates,
split the line, and when the pattern is linear run `fillMove`; the slot write
is the returned string. -/
def infillMotion (cfg : Config) (st : St) (line : String) (newLineHead : String) :
    Except Err (St × Option String) :=
  if hasSub line "E" ∧ hasSub line "G1" ∧ hasSub line "X" ∧ hasSub line "Y" then do
    let currentPosition ← getXY line
    let splitLine := line.splitOn " "
    if fill_type cfg.infillpattern = 1 then do
      let (written, lp) ← fillMove cfg st.perimeterSegments st.current_speed
        st.lastPosition currentPosition splitLine newLineHead
      .ok ({ st with lastPosition := lp }, some written)
    else .ok (st, none)
  else .ok (st, none)

/-- The trailing position update (lines 537-538): any motion command carrying
both axes moves `lastPosition`. -/
def trackPosition (st : St) (line : String) : Except Err St :=
  if hasSub line "X" ∧ hasSub line "Y" ∧ (hasSub line "G1" ∨ hasSub line "G0") then do
    let p ← getXY line
    .ok { st with lastPosition := p }
  else .ok st

/-- Processing of one line of a layer (the body of the `for currentLineINcode`
loop, lines 398-538).  Returns the updated state and the text written into
the line's slot, if any.  The fill-start marker branch (lines 420-425) first
logs `len(perimeterSegments)` — an `UnboundLocalError` when no `;LAYER:`
line has bound the list yet — then sets the section and `continue`s, skipping
everything else.  Inside a fill section the `;`-comment branch (lines
531-533) runs after the motion branch and overwrites the same slot. -/
def processLine (cfg : Config) (st : St) (line : String) :
    Except Err (St × Option String) := do
  let st := applyMarkers st line
  let st ← innerWallRecord st line
  if is_infill line then
    match st.perimeterSegments with
    | none => .error .unboundLocal
    | some _ => .ok ({ st with currentSection := .INFILL }, none)
  else
    if st.currentSection = .INFILL then do
      let (st, newLineHead) ← infillFeedLine st line
      let (st, write1) ← infillMotion cfg st line newLineHead
      let (st, write2) :=
        if hasSub line ";" then ({ st with currentSection := .NOTHING }, some line)
        else (st, write1)
      let st ← trackPosition st line
      .ok (st, write2)
    else do
      let st ← trackPosition st line
      .ok (st, none)

/-- The sequence of graded feed values produced by iterating `stepSpeed`
over consecutive step numbers, threading the trailing counter exactly as the
subdivision loop does.  The `base` argument is irrelevant whenever grading is
enabled (the leading and plateau branches cover all step numbers), so it is
fixed to 0 here; `stepSpeed_base_irrelevant` below justifies this. -/
def speedSeq (cs minF maxF deficit division_nr segSteps : ℚ) :
    ℕ → ℕ → ℕ → List ℚ
  | 0, _, _ => []
  | fuel+1, sn, ln =>
    let (v, ln2) := stepSpeed cs minF maxF deficit division_nr segSteps 0 sn ln
    v :: speedSeq cs minF maxF deficit division_nr segSteps fuel (sn+1) ln2

/-- The graded feeds of a subdivided move with `n` steps, starting both ramp
counters at 0 as the loop does (lines 453-454). -/
def gradedSpeeds (cs minF maxF deficit division_nr segSteps : ℚ) (n : ℕ) : List ℚ :=
  speedSeq cs minF maxF deficit division_nr segSteps n 0 0

/-- How many of the step numbers `sn, sn+1, ..., sn+k-1` satisfy the trailing
ramp condition `step_number >= segmentSteps - division_nr`: the value of the
trailing counter after those steps. -/
def trailCount (segSteps division_nr : ℚ) : ℕ → ℕ → ℕ
  | _, 0 => 0
  | sn, k+1 =>
    (if (sn : ℚ) ≥ segSteps - division_nr then 1 else 0) +
      trailCount segSteps division_nr (sn+1) k

/-- `lines.index(x)`: the first slot whose text equals `x`. -/
def firstIdx (l : List String) (t : String) : ℕ := l.findIdx (· = t)

/-- The line loop of `execute` (lines 398-538) with Python's live-list
semantics: the value at position `p` is read from the current list, and a
transformed line is written into the slot `lines.index(text)` — the first
slot whose text equals the text just processed.  The fuel is the (invariant)
list length. -/
def lineLoop (cfg : Config) : ℕ → ℕ → St → List String → Except Err (St × List String)
  | 0, _, st, cur => .ok (st, cur)
  | fuel+1, p, st, cur =>
    if h : p < cur.length then do
      let text := cur.get ⟨p, h⟩
      let (st2, w) ← processLine cfg st text
      let cur2 := match w with
        | none => cur
        | some s => cur.set (firstIdx cur text) s
      lineLoop cfg fuel (p+1) st2 cur2
    else .ok (st, cur)

/-- One layer (lines 397 and 540): split on newlines, run the line loop,
rejoin. -/
def processLayer (cfg : Config) (st : St) (layer : String) : Except Err (St × String) := do
  let lines := layer.splitOn "\n"
  let (st2, lines2) ← lineLoop cfg lines.length 0 st lines
  .ok (st2, String.intercalate "\n" lines2)

/-- The layer loop of `execute` (lines 395-541), again with live-list
semantics: `data.index(layer)` picks the first slot equal to the layer text
just processed, and the rewritten layer is stored there. -/
def layerLoop (cfg : Config) : ℕ → ℕ → St → List String → Except Err (List String)
  | 0, _, _, data => .ok data
  | fuel+1, p, st, data =>
    if h : p < data.length then do
      let layer := data.get ⟨p, h⟩
      let (st2, out) ← processLayer cfg st layer
      let data2 := data.set (firstIdx data layer) out
      layerLoop cfg fuel (p+1) st2 data2
    else .ok data

/-- `LinearlyVariableInfill.execute` (lines 340-542).  The derived
`littleSegmentLength = variable_segment_lengh / division_nr` (line 376) is
computed before the eligibility gate, so `division_nr = 0` faults first;
then an unsupported pattern or the connect-infill flag returns `None`
(embedded as `none`); otherwise every layer is rewritten in order. -/
def execute (cfg : Config) (data : List String) : Except Err (Option (List String)) :=
  if cfg.division_nr = 0 then .error .zeroDivision
  else
    let infill_type := fill_type cfg.infillpattern
    if infill_type = 0 then .ok none
    else if cfg.connectinfill = true then .ok none
    else do
      let out ← layerLoop cfg data.length 0 initSt data
      .ok (some out)

/-- A run configuration with the script's default settings (divisionNR 4,
variableSegmentLength 6 mm, speed grading off, factors 200%/60%) and the
eligible pattern `lines` without connected infill. -/
def cfgLines : Config :=
  { division_nr := 4
    variable_segment_lengh := 6
    variable_speed := false
    max_speed_factor := 2
    min_speed_factor := 0.6
    infillpattern := "lines"
    connectinfill := false }

/-- The same configuration with the ineligible pattern `gyroid`. -/
def cfgGyroid : Config := { cfgLines with infillpattern := "gyroid" }

/-- A perimeter wall stroke along the Y axis from `(0,10)` down to `(0,0)`,
as the wall index builder would record it. -/
def wallSegEx : Segment := ⟨⟨0, 10⟩, ⟨0, 0⟩⟩

/-- Bind of a success in the `Except Err` monad. -/
theorem ok_bind {α β : Type} (a : α) (f : α → Except Err β) :
    ((Except.ok a : Except Err α) >>= f) = f a := rfl

/-- Bind of a fault in the `Except Err` monad. -/
theorem error_bind {α β : Type} (e : Err) (f : α → Except Err β) :
    ((Except.error e : Except Err α) >>= f) = .error e := rfl

/-- C1, counterexample: with the rejected pattern `gyroid`, `execute` returns
`None` (embedded `none`), not the input program unchanged — the claim's
pass-through output `some ["G1 X0 Y0"]` is not what the code produces. -/
theorem C1_counterexample :
    execute cfgGyroid ["G1 X0 Y0"] = .ok none ∧
    execute cfgGyroid ["G1 X0 Y0"] ≠ .ok (some ["G1 X0 Y0"]) := by
  have h : execute cfgGyroid ["G1 X0 Y0"] = .ok none := by with_unfolding_all rfl
  refine ⟨h, ?_⟩
  rw [h]
  simp

/-- C1, amended: whenever the eligibility gate rejects the run (pattern not
on the allow-list, or connected infill enabled) and the settings do not
themselves fault (`division_nr ≠ 0`), `execute` surfaces the reason and
returns `None` — it does not return (nor touch) the input program. -/
theorem C1_rejection_returns_none (cfg : Config) (data : List String)
    (hdiv : cfg.division_nr ≠ 0)
    (hrej : fill_type cfg.infillpattern = 0 ∨ cfg.connectinfill = true) :
    execute cfg data = .ok none := by
  unfold execute
  rcases hrej with h | h
  · simp [hdiv, h]
  · simp [hdiv, h]

/-- C1, witness: the amended statement holds at the concrete gyroid run. -/
theorem C1_witness : execute cfgGyroid ["start", "end"] = .ok none :=
  C1_rejection_returns_none cfgGyroid ["start", "end"]
    (by norm_num [cfgGyroid, cfgLines])
    (Or.inl (by with_unfolding_all rfl))

/-- C3: `dist` on a degenerate segment (both endpoints equal) raises
`ZeroDivisionError` from `u = ... / float(norm)` with `norm = 0`, instead of
returning the point-to-point distance the claim requires. -/
theorem C3_dist_degenerate_crash :
    dist ⟨⟨1, 2⟩, ⟨1, 2⟩⟩ ⟨0, 0⟩ = .error .zeroDivision ∧
    dist ⟨⟨1, 2⟩, ⟨1, 2⟩⟩ ⟨0, 0⟩ ≠
      .ok (two_points_distance ⟨0, 0⟩ ⟨1, 2⟩) := by
  have h : dist ⟨⟨1, 2⟩, ⟨1, 2⟩⟩ ⟨0, 0⟩ = .error .zeroDivision := by
    with_unfolding_all rfl
  refine ⟨h, ?_⟩
  rw [h]
  simp

/-- C4: a fill motion line graded while the layer's wall index is empty: the
loop logs its warning but then calls `min` over an empty sequence, so the
whole transformation aborts with `ValueError` instead of treating the
distance as far-from-any-wall. -/
theorem C4_empty_wall_crash :
    execute cfgLines [";LAYER:0\n;TYPE:FILL\nG1 F100\nG0 X0 Y0\nG1 X6 Y0 E1"] =
      .error .valueError := by
  with_unfolding_all rfl

/-- C5: on a motion line with a signed X field, which the documented field
syntax allows, the capture group of `X(\d*\.?\d*)` is empty (the pattern has
no sign class), so `float('')` raises `ValueError`; `getXY` neither returns
the signed coordinates nor confines its failures to missing axis tokens. -/
theorem C5_negative_coordinate_crash :
    getXY "G1 X-1.5 Y2.0 E0.1" = .error .valueError ∧
    getXY "G1 X-1.5 Y2.0 E0.1" ≠ .ok ⟨-1.5, 2.0⟩ := by
  have h : getXY "G1 X-1.5 Y2.0 E0.1" = .error .valueError := by
    with_unfolding_all rfl
  refine ⟨h, ?_⟩
  rw [h]
  simp

/-- C6, counterexample: a layer that binds the wall list with `;LAYER:0` and
then contains the fill-start marker is transformed to itself — the marker
line is still present in the output, not dropped: the `continue` skips the
marker's processing but never removes its slot from the line list. -/
theorem C6_counterexample :
    execute cfgLines [";LAYER:0\n;TYPE:FILL"] =
      .ok (some [";LAYER:0\n;TYPE:FILL"]) := by
  with_unfolding_all rfl

/-- The marker scans never unbind the wall list (a `;LAYER:` line rebinds it
to an empty one). -/
theorem applyMarkers_walls (st : St) (line : String)
    (h : st.perimeterSegments ≠ none) :
    (applyMarkers st line).perimeterSegments ≠ none := by
  unfold applyMarkers
  split_ifs <;> simp_all

/-- C6, amended: once a `;LAYER:` line has bound the wall list, a fill-start
marker line sets the current section to FILL and is skipped from all further
processing of that iteration (no slot write, no cursor update), but its text
is retained in the layer — the write is `none`, so the marker is passed
through to the output unchanged.  (Before any `;LAYER:` line, the marker's
own `len(perimeterSegments)` log at line 422 aborts the run instead of
consuming the marker.) -/
theorem C6_marker_sets_fill_and_is_kept (cfg : Config) (st : St) (line : String)
    (hfill : is_infill line = true) (hez : ez_nyomtatasi_vonal line = false)
    (hw : st.perimeterSegments ≠ none) :
    processLine cfg st line =
      .ok ({ applyMarkers st line with currentSection := .INFILL }, none) := by
  have hrec : innerWallRecord (applyMarkers st line) line =
      .ok (applyMarkers st line) := by
    unfold innerWallRecord
    simp [hez]
  obtain ⟨segs, hsegs⟩ := Option.ne_none_iff_exists'.mp (applyMarkers_walls st line hw)
  simp only [processLine, hrec, ok_bind, hfill, if_true, hsegs]

/-- C6, witness: the amended statement at the concrete marker `;TYPE:FILL`
in a state whose wall list is bound (as after a `;LAYER:` line). -/
theorem C6_witness :
    processLine cfgLines { initSt with perimeterSegments := some [] } ";TYPE:FILL" =
      .ok ({ applyMarkers { initSt with perimeterSegments := some [] } ";TYPE:FILL" with
              currentSection := .INFILL }, none) :=
  C6_marker_sets_fill_and_is_kept cfgLines
    { initSt with perimeterSegments := some [] } ";TYPE:FILL"
    (by with_unfolding_all rfl) (by with_unfolding_all rfl) (by simp)

/-- Inversion of a successful bind in the `Except Err` monad. -/
theorem exists_of_bind_ok {α β : Type} {x : Except Err α} {f : α → Except Err β}
    {b : β} (h : (x >>= f) = .ok b) : ∃ a, x = .ok a ∧ f a = .ok b := by
  cases x with
  | error e => rw [error_bind] at h; exact absurd h (by simp)
  | ok a =>
    rw [ok_bind] at h
    exact ⟨a, rfl, h⟩

/-- Each successful iteration of the subdivision loop emits exactly one
motion line. -/
theorem subdivStep_out_length (cfg : Config) (walls : List Segment) (cs : ℚ)
    (dirStep : Point2D) (dE deficit segSteps : ℚ) (s s2 : LoopSt)
    (h : subdivStep cfg walls cs dirStep dE deficit segSteps s = .ok s2) :
    s2.out.length = s.out.length + 1 := by
  simp only [subdivStep] at h
  obtain ⟨d, h1, h2⟩ := exists_of_bind_ok h
  injection h2 with h3
  subst h3
  simp

/-- A successful subdivision loop of `n` iterations emits exactly `n` motion
lines. -/
theorem subdivLoop_out_length (cfg : Config) (walls : List Segment) (cs : ℚ)
    (dirStep : Point2D) (dE deficit segSteps : ℚ) :
    ∀ (n : ℕ) (init s : LoopSt),
      subdivLoop cfg walls cs dirStep dE deficit segSteps n init = .ok s →
      s.out.length = init.out.length + n := by
  intro n
  induction n with
  | zero =>
    intro init s h
    simp only [subdivLoop] at h
    injection h with h2
    subst h2
    simp
  | succ k ih =>
    intro init s h
    simp only [subdivLoop] at h
    obtain ⟨s2, h1, h2⟩ := exists_of_bind_ok h
    have ha := subdivStep_out_length cfg walls cs dirStep dE deficit segSteps init s2 h1
    have hb := ih s2 s h2
    omega

/-- C2, counterexample: a subdivided fill move to `(16.2344, 0)` with feed
rate 100.5.  The closing line the code emits is `G1 X16.234 Y0.0 E5.0 F60`:
its X coordinate is the target rounded to 3 decimals, not the exact target
`16.2344`, and its feed `60` is the truncation of
`current_speed * min_speed_factor = 60.3`, not that product itself. -/
theorem C2_counterexample :
    fillMove cfgLines (some [wallSegEx]) (some 100.5) ⟨10, 0⟩ ⟨16.2344, 0⟩
        ("G1 X16.2344 Y0 E5".splitOn " ") "" =
      .ok ("G1 X11.5 Y0.0 E4.96883\nG1 X13.0 Y0.0 E4.9787\nG1 X14.5 Y0.0 E4.98858\nG1 X16.0 Y0.0 E4.99846\nG1 X16.234 Y0.0 E5.0 F60\n",
        ⟨16, 0⟩) ∧
    getXY "G1 X16.234 Y0.0 E5.0 F60" = .ok ⟨16.234, 0⟩ ∧
    (16.234 : ℚ) ≠ 16.2344 ∧
    ((pytrunc ((100.5 : ℚ) * (0.6 : ℚ)) : ℚ)) ≠ (100.5 : ℚ) * (0.6 : ℚ) := by
  refine ⟨by with_unfolding_all rfl, by with_unfolding_all rfl, by norm_num, ?_⟩
  have h : pytrunc ((100.5 : ℚ) * (0.6 : ℚ)) = 60 := by with_unfolding_all rfl
  rw [h]
  norm_num

/-- C2, amended: every successful subdivided-move emission consists of the
loop's `n` step lines followed by exactly one closing line whose text is
`gcode_template` of the original target coordinates (rounded to 3 decimals)
and the original extrusion value (rounded to 5 decimals), with feed
`int(current_speed * min_speed_factor)` — it is appended unconditionally, so
this holds whether or not speed grading is enabled. -/
theorem C2_closing_line_amended (cfg : Config) (walls : List Segment) (cs : ℚ)
    (dirStep : Point2D) (dE deficit segSteps : ℚ) (n : ℕ) (init : LoopSt)
    (currentPosition : Point2D) (E_inCode : ℚ) (ls : List String) (lp : Point2D)
    (h : subdivEmit cfg walls cs dirStep dE deficit segSteps n init
      currentPosition E_inCode = .ok (ls, lp)) :
    ls.getLast? = some (closingLine currentPosition E_inCode cs cfg.min_speed_factor) ∧
    ls.length = init.out.length + n + 1 := by
  simp only [subdivEmit] at h
  obtain ⟨s, h1, h2⟩ := exists_of_bind_ok h
  injection h2 with h3
  have h4 : s.out ++ [closingLine currentPosition E_inCode cs cfg.min_speed_factor] = ls :=
    congrArg Prod.fst h3
  constructor
  · rw [← h4]
    exact List.getLast?_concat _
  · rw [← h4]
    have := subdivLoop_out_length cfg walls cs dirStep dE deficit segSteps n init s h1
    simp [this]

/-- C2, witness: the amended statement at a concrete subdivided move of
length 6 from `(10,0)` to `(16,0)` with feed 100 (4 steps of 1.5 mm). -/
theorem C2_witness :
    ∃ ls lp,
      subdivEmit cfgLines [wallSegEx] 100 ⟨1.5, 0⟩ 0.009876 65 4 4
        { lastPos := ⟨10, 0⟩, eLast := 4.960496, sn := 0, ln := 0,
          feedStr := "", out := [] } ⟨16, 0⟩ 5 = .ok (ls, lp) ∧
      ls.getLast? = some (closingLine ⟨16, 0⟩ 5 100 cfgLines.min_speed_factor) ∧
      ls.length = 5 := by
  have h : subdivEmit cfgLines [wallSegEx] 100 ⟨1.5, 0⟩ 0.009876 65 4 4
      { lastPos := ⟨10, 0⟩, eLast := 4.960496, sn := 0, ln := 0,
        feedStr := "", out := [] } ⟨16, 0⟩ 5 =
      .ok (["G1 X11.5 Y0.0 E4.97037", "G1 X13.0 Y0.0 E4.98025",
            "G1 X14.5 Y0.0 E4.99012", "G1 X16.0 Y0.0 E5.0",
            "G1 X16.0 Y0.0 E5.0 F60"], ⟨16, 0⟩) := by
    with_unfolding_all rfl
  have h2 := C2_closing_line_amended cfgLines [wallSegEx] 100 ⟨1.5, 0⟩ 0.009876 65 4 4
    { lastPos := ⟨10, 0⟩, eLast := 4.960496, sn := 0, ln := 0,
      feedStr := "", out := [] } ⟨16, 0⟩ 5 _ _ h
  exact ⟨_, _, h, h2.1, h2.2.trans (by rfl)⟩

set_option maxRecDepth 8000 in
/-- C7, counterexample: a layer where the line `G1 X5 Y5 E1.123456` occurs
both before the fill section (where it is not transformed) and inside it.
`lines.index` finds the first occurrence, so the short-move rewrite of the
second occurrence lands in slot 1 — an untransformed line's slot — while the
fill-section line's own slot (slot 5) keeps its original text. -/
theorem C7_counterexample :
    execute cfgLines
        [";LAYER:0\nG1 X5 Y5 E1.123456\n;TYPE:FILL\nG1 F100\nG0 X4 Y5\nG1 X5 Y5 E1.123456"] =
      .ok (some
        [";LAYER:0\nG1 X5 Y5 E1.12346\n;TYPE:FILL\nG1 F100\nG0 X4 Y5\nG1 X5 Y5 E1.123456"]) ∧
    (";LAYER:0\nG1 X5 Y5 E1.12346\n;TYPE:FILL\nG1 F100\nG0 X4 Y5\nG1 X5 Y5 E1.123456".splitOn "\n").get? 1 =
      some "G1 X5 Y5 E1.12346" ∧
    (";LAYER:0\nG1 X5 Y5 E1.12346\n;TYPE:FILL\nG1 F100\nG0 X4 Y5\nG1 X5 Y5 E1.123456".splitOn "\n").get? 5 =
      some "G1 X5 Y5 E1.123456" := by
    refine ⟨?_, ?_, ?_⟩ <;> with_unfolding_all rfl

/-- C7, amended: the line loop never inserts or deletes slots — every write
replaces the slot `lines.index(text)` (the first slot whose current text
equals the processed line's text, which under duplicate texts may be an
earlier line's slot), so the slot count of a layer is invariant; the
fill-start marker is retained and subdivision expands inside a single slot. -/
theorem C7_slot_count_preserved (cfg : Config) :
    ∀ (fuel p : ℕ) (st : St) (cur : List String) (st2 : St) (cur2 : List String),
      lineLoop cfg fuel p st cur = .ok (st2, cur2) → cur2.length = cur.length := by
  intro fuel
  induction fuel with
  | zero =>
    intro p st cur st2 cur2 h
    simp only [lineLoop] at h
    injection h with h2
    rw [show cur2 = cur from (congrArg Prod.snd h2).symm]
  | succ k ih =>
    intro p st cur st2 cur2 h
    simp only [lineLoop] at h
    by_cases hp : p < cur.length
    · rw [dif_pos hp] at h
      obtain ⟨pr, h1, h2⟩ := exists_of_bind_ok h
      obtain ⟨st3, w⟩ := pr
      have h3 := ih (p+1) st3 _ st2 cur2 h2
      cases w with
      | none => simpa using h3
      | some str =>
        rw [h3]
        simp
    · rw [dif_neg hp] at h
      injection h with h2
      rw [show cur2 = cur from (congrArg Prod.snd h2).symm]

/-- C7, witness: the slot-count invariance at a concrete layer whose fill
move is subdivided into five emitted lines — the line list still has its
original 8 slots afterwards. -/
theorem C7_witness :
    ∃ st2 cur2,
      lineLoop cfgLines 8 0 initSt
        [";LAYER:0", "G0 X0 Y0", ";TYPE:WALL-INNER", "G1 X0 Y10 E1",
         ";TYPE:FILL", "G1 F100", "G0 X10 Y0", "G1 X16 Y0 E5"] = .ok (st2, cur2) ∧
      cur2.length = 8 := by
  have h : lineLoop cfgLines 8 0 initSt
      [";LAYER:0", "G0 X0 Y0", ";TYPE:WALL-INNER", "G1 X0 Y10 E1",
       ";TYPE:FILL", "G1 F100", "G0 X10 Y0", "G1 X16 Y0 E5"] =
      .ok ({ currentSection := .INFILL, lastPosition := ⟨16, 0⟩,
             perimeterSegments := some [⟨⟨0, 10⟩, ⟨0, 0⟩⟩],
             current_speed := some 100 },
           [";LAYER:0", "G0 X0 Y0", ";TYPE:WALL-INNER", "G1 X0 Y10 E1",
            ";TYPE:FILL", "G1 F100", "G0 X10 Y0",
            "G1 X11.5 Y0.0 E4.97037\nG1 X13.0 Y0.0 E4.98025\nG1 X14.5 Y0.0 E4.99012\nG1 X16.0 Y0.0 E5.0\nG1 X16.0 Y0.0 E5.0 F60\n"]) := by
    with_unfolding_all rfl
  exact ⟨_, _, h,
    (C7_slot_count_preserved cfgLines 8 0 initSt _ _ _ h).trans (by rfl)⟩

/-- With grading enabled the leading and plateau branches cover every step
number, so the running `segmentSpeed` value fed into the grading block never
survives: `stepSpeed` does not depend on its `base` argument. -/
theorem stepSpeed_base_irrelevant (cs minF maxF deficit dq segSteps base base2 : ℚ)
    (sn ln : ℕ) :
    stepSpeed cs minF maxF deficit dq segSteps base sn ln =
      stepSpeed cs minF maxF deficit dq segSteps base2 sn ln := by
  by_cases h : (sn : ℚ) < dq
  · simp [stepSpeed, h, not_le.mpr h]
  · simp [stepSpeed, h, ge_iff_le, not_lt.mp h]

/-- The trailing counter advances exactly when the trailing condition holds. -/
theorem stepSpeed_snd (cs minF maxF deficit dq segSteps base : ℚ) (sn ln : ℕ) :
    (stepSpeed cs minF maxF deficit dq segSteps base sn ln).2 =
      if segSteps - dq ≤ (sn : ℚ) then ln + 1 else ln := by
  by_cases h : segSteps - dq ≤ (sn : ℚ)
  · simp [stepSpeed, h]
  · simp [stepSpeed, h]

/-- Value of a step in the leading ramp (before the trailing condition). -/
theorem stepSpeed_fst_lead (cs minF maxF deficit dq segSteps base : ℚ) (sn ln : ℕ)
    (h1 : (sn : ℚ) < dq) (h2 : ¬ segSteps - dq ≤ (sn : ℚ)) :
    (stepSpeed cs minF maxF deficit dq segSteps base sn ln).1 =
      cs * minF + deficit * (sn : ℚ) := by
  simp [stepSpeed, h1, not_le.mpr h1, h2]

/-- Value of a step on the plateau (before the trailing condition). -/
theorem stepSpeed_fst_plateau (cs minF maxF deficit dq segSteps base : ℚ) (sn ln : ℕ)
    (h1 : dq ≤ (sn : ℚ)) (h2 : ¬ segSteps - dq ≤ (sn : ℚ)) :
    (stepSpeed cs minF maxF deficit dq segSteps base sn ln).1 = cs * maxF := by
  simp [stepSpeed, not_lt.mpr h1, ge_iff_le, h1, h2]

/-- Value of a step once the trailing condition fires: the trailing branch
overrides whatever the earlier branches computed. -/
theorem stepSpeed_fst_trail (cs minF maxF deficit dq segSteps base : ℚ) (sn ln : ℕ)
    (h : segSteps - dq ≤ (sn : ℚ)) :
    (stepSpeed cs minF maxF deficit dq segSteps base sn ln).1 =
      cs * maxF - deficit * (ln : ℚ) := by
  simp [stepSpeed, ge_iff_le, h]

/-- Extending the counted range by one step on the right. -/
theorem trailCount_succ_right (segSteps dq : ℚ) :
    ∀ (k sn : ℕ),
      trailCount segSteps dq sn (k+1) =
        trailCount segSteps dq sn k +
          (if segSteps - dq ≤ ((sn + k : ℕ) : ℚ) then 1 else 0) := by
  intro k
  induction k with
  | zero =>
    intro sn
    simp [trailCount, ge_iff_le]
  | succ m ih =>
    intro sn
    rw [show trailCount segSteps dq sn (m+1+1) =
        (if (sn : ℚ) ≥ segSteps - dq then 1 else 0) +
          trailCount segSteps dq (sn+1) (m+1) from rfl]
    rw [ih (sn+1)]
    rw [show trailCount segSteps dq sn (m+1) =
        (if (sn : ℚ) ≥ segSteps - dq then 1 else 0) +
          trailCount segSteps dq (sn+1) m from rfl]
    have hc : ((sn + 1 + m : ℕ) : ℚ) = ((sn + (m + 1) : ℕ) : ℚ) := by
      congr 1
      omega
    rw [hc]
    omega

/-- The trailing counter is 0 when no step in the counted range satisfies the
trailing condition. -/
theorem trailCount_zero (segSteps dq : ℚ) :
    ∀ (k sn : ℕ),
      (∀ j, j < k → ¬ segSteps - dq ≤ ((sn + j : ℕ) : ℚ)) →
      trailCount segSteps dq sn k = 0 := by
  intro k
  induction k with
  | zero => intro sn _; rfl
  | succ m ih =>
    intro sn h
    have h0 : ¬ segSteps - dq ≤ (sn : ℚ) := by
      have := h 0 (by omega)
      simpa using this
    rw [show trailCount segSteps dq sn (m+1) =
        (if (sn : ℚ) ≥ segSteps - dq then 1 else 0) +
          trailCount segSteps dq (sn+1) m from rfl]
    rw [if_neg (by simpa [ge_iff_le] using h0)]
    rw [ih (sn+1) ?_]
    intro j hj
    have := h (j+1) (by omega)
    have hc : ((sn + 1 + j : ℕ) : ℚ) = ((sn + (j + 1) : ℕ) : ℚ) := by
      congr 1
      omega
    rw [hc]
    exact this

/-- Characterization of the `k`-th element of `speedSeq`: it is the grading
policy applied at step number `sn + k` with the trailing counter equal to its
start value plus the number of trailing firings among the skipped steps. -/
theorem speedSeq_get? (cs minF maxF deficit dq segSteps : ℚ) :
    ∀ (fuel sn ln k : ℕ), k < fuel →
      (speedSeq cs minF maxF deficit dq segSteps fuel sn ln).get? k =
        some ((stepSpeed cs minF maxF deficit dq segSteps 0 (sn + k)
          (ln + trailCount segSteps dq sn k)).1) := by
  intro fuel
  induction fuel with
  | zero => intro sn ln k hk; omega
  | succ m ih =>
    intro sn ln k hk
    cases k with
    | zero =>
      simp [speedSeq, trailCount]
    | succ k2 =>
      have step : (speedSeq cs minF maxF deficit dq segSteps (m+1) sn ln).get? (k2+1) =
          (speedSeq cs minF maxF deficit dq segSteps m (sn+1)
            ((stepSpeed cs minF maxF deficit dq segSteps 0 sn ln).2)).get? k2 := by
        simp [speedSeq]
      rw [step, ih (sn+1) _ k2 (by omega)]
      rw [stepSpeed_snd]
      have harg : sn + 1 + k2 = sn + (k2 + 1) := by omega
      rw [harg]
      have hcnt : (if segSteps - dq ≤ (sn : ℚ) then ln + 1 else ln) +
          trailCount segSteps dq (sn+1) k2 =
          ln + trailCount segSteps dq sn (k2+1) := by
        rw [show trailCount segSteps dq sn (k2+1) =
            (if (sn : ℚ) ≥ segSteps - dq then 1 else 0) +
              trailCount segSteps dq (sn+1) k2 from rfl]
        by_cases h : segSteps - dq ≤ (sn : ℚ)
        · rw [if_pos h, if_pos (by simpa [ge_iff_le] using h)]
          omega
        · rw [if_neg h, if_neg (by simpa [ge_iff_le] using h)]
          omega
      rw [hcnt]

/-- C8: with speed grading enabled, for a subdivided move of `n` steps with
`n >= 2 * divisions` (and the nonnegative feed and factor values the parser
and the settings schema guarantee), the graded feeds of the first `divisions`
steps form a non-decreasing sequence, the feeds of the trailing `divisions`
steps form a non-increasing sequence, and on any step where the leading and
trailing ramp conditions hold simultaneously the trailing branch determines
the feed (later branches override earlier ones). -/
theorem C8_ramp_monotonicity (cs minF maxF segSteps : ℚ) (division_nr n : ℕ)
    (hdiv : 1 ≤ division_nr) (hn : 2 * division_nr ≤ n)
    (hseg : (n : ℚ) ≤ segSteps)
    (hcs : 0 ≤ cs) (hmin : 0 ≤ minF) (hmax : 0 ≤ maxF) :
    (∀ i, i + 1 < division_nr →
      ∃ a b,
        (gradedSpeeds cs minF maxF ((cs * maxF + cs * minF) / (division_nr : ℚ))
            (division_nr : ℚ) segSteps n).get? i = some a ∧
        (gradedSpeeds cs minF maxF ((cs * maxF + cs * minF) / (division_nr : ℚ))
            (division_nr : ℚ) segSteps n).get? (i + 1) = some b ∧
        a ≤ b) ∧
    (∀ i, n - division_nr ≤ i → i + 1 < n →
      ∃ a b,
        (gradedSpeeds cs minF maxF ((cs * maxF + cs * minF) / (division_nr : ℚ))
            (division_nr : ℚ) segSteps n).get? i = some a ∧
        (gradedSpeeds cs minF maxF ((cs * maxF + cs * minF) / (division_nr : ℚ))
            (division_nr : ℚ) segSteps n).get? (i + 1) = some b ∧
        b ≤ a) ∧
    (∀ (base : ℚ) (sn ln : ℕ), (sn : ℚ) < (division_nr : ℚ) →
      segSteps - (division_nr : ℚ) ≤ (sn : ℚ) →
      stepSpeed cs minF maxF ((cs * maxF + cs * minF) / (division_nr : ℚ))
          (division_nr : ℚ) segSteps base sn ln =
        (cs * maxF - ((cs * maxF + cs * minF) / (division_nr : ℚ)) * (ln : ℚ),
          ln + 1)) := by
  set dq : ℚ := (division_nr : ℚ) with hdq
  set deficit : ℚ := (cs * maxF + cs * minF) / dq with hdef
  have hdq0 : 0 < dq := by
    rw [hdq]
    exact_mod_cast Nat.lt_of_lt_of_le Nat.zero_lt_one hdiv
  have hdef0 : 0 ≤ deficit := by
    rw [hdef]
    exact div_nonneg (add_nonneg (mul_nonneg hcs hmax) (mul_nonneg hcs hmin)) hdq0.le
  have h2d : 2 * dq ≤ (n : ℚ) := by
    rw [hdq]
    exact_mod_cast hn
  have hwindow : dq ≤ segSteps - dq := by linarith
  refine ⟨?_, ?_, ?_⟩
  · -- leading ramp: non-decreasing
    intro i hi
    have hiq : (i : ℚ) < dq := by
      rw [hdq]
      exact_mod_cast (by omega : i < division_nr)
    have hi1q : ((i + 1 : ℕ) : ℚ) < dq := by
      rw [hdq]
      exact_mod_cast hi
    have hkey : ∀ (j : ℕ), (j : ℚ) < dq → ¬ segSteps - dq ≤ (j : ℚ) := by
      intro j hj hc
      linarith
    have hin : i + 1 < n := by omega
    have e1 := speedSeq_get? cs minF maxF deficit dq segSteps n 0 0 i (by omega)
    have e2 := speedSeq_get? cs minF maxF deficit dq segSteps n 0 0 (i + 1) hin
    simp only [Nat.zero_add] at e1 e2
    rw [stepSpeed_fst_lead cs minF maxF deficit dq segSteps 0 i _ hiq (hkey i hiq)] at e1
    rw [stepSpeed_fst_lead cs minF maxF deficit dq segSteps 0 (i + 1) _ hi1q
      (hkey (i + 1) hi1q)] at e2
    refine ⟨_, _, e1, e2, ?_⟩
    have hle : (i : ℚ) ≤ ((i + 1 : ℕ) : ℚ) := by exact_mod_cast Nat.le_succ i
    have := mul_le_mul_of_nonneg_left hle hdef0
    linarith
  · -- trailing window: non-increasing
    intro i hwin hin
    have hdiv_le_i : dq ≤ (i : ℚ) := by
      rw [hdq]
      exact_mod_cast (by omega : division_nr ≤ i)
    have hdiv_le_i1 : dq ≤ ((i + 1 : ℕ) : ℚ) := by
      rw [hdq]
      exact_mod_cast (by omega : division_nr ≤ i + 1)
    have e1 := speedSeq_get? cs minF maxF deficit dq segSteps n 0 0 i (by omega)
    have e2 := speedSeq_get? cs minF maxF deficit dq segSteps n 0 0 (i + 1) hin
    simp only [Nat.zero_add] at e1 e2
    by_cases hfi : segSteps - dq ≤ (i : ℚ)
    · have hfi1 : segSteps - dq ≤ ((i + 1 : ℕ) : ℚ) := by
        refine le_trans hfi ?_
        exact_mod_cast Nat.le_succ i
      rw [stepSpeed_fst_trail cs minF maxF deficit dq segSteps 0 i _ hfi] at e1
      rw [stepSpeed_fst_trail cs minF maxF deficit dq segSteps 0 (i + 1) _ hfi1] at e2
      have hcnt : trailCount segSteps dq 0 (i + 1) = trailCount segSteps dq 0 i + 1 := by
        rw [trailCount_succ_right segSteps dq i 0]
        rw [if_pos (by simpa using hfi)]
      rw [hcnt] at e2
      refine ⟨_, _, e1, e2, ?_⟩
      have : ((trailCount segSteps dq 0 i + 1 : ℕ) : ℚ) =
          ((trailCount segSteps dq 0 i : ℕ) : ℚ) + 1 := by push_cast; ring
      rw [this]
      have h01 : ((trailCount segSteps dq 0 i : ℕ) : ℚ) ≤
          ((trailCount segSteps dq 0 i : ℕ) : ℚ) + 1 := by linarith
      have := mul_le_mul_of_nonneg_left h01 hdef0
      linarith
    · by_cases hfi1 : segSteps - dq ≤ ((i + 1 : ℕ) : ℚ)
      · rw [stepSpeed_fst_plateau cs minF maxF deficit dq segSteps 0 i _ hdiv_le_i hfi] at e1
        rw [stepSpeed_fst_trail cs minF maxF deficit dq segSteps 0 (i + 1) _ hfi1] at e2
        have hcnt : trailCount segSteps dq 0 (i + 1) = 0 := by
          refine trailCount_zero segSteps dq (i + 1) 0 ?_
          intro j hj hc
          refine hfi (le_trans hc ?_)
          exact_mod_cast (by omega : 0 + j ≤ i)
        rw [hcnt] at e2
        refine ⟨_, _, e1, e2, ?_⟩
        simp
      · rw [stepSpeed_fst_plateau cs minF maxF deficit dq segSteps 0 i _ hdiv_le_i hfi] at e1
        rw [stepSpeed_fst_plateau cs minF maxF deficit dq segSteps 0 (i + 1) _ hdiv_le_i1
          hfi1] at e2
        exact ⟨_, _, e1, e2, le_refl _⟩
  · -- override: the trailing branch wins when both conditions hold
    intro base sn ln h1 h2
    have e1 := stepSpeed_fst_trail cs minF maxF deficit dq segSteps base sn ln h2
    have e2 := stepSpeed_snd cs minF maxF deficit dq segSteps base sn ln
    rw [if_pos h2] at e2
    exact Prod.ext e1 e2

/-- C8, witness: at feed 100, factors 0.6 and 2, `segmentSteps = 5`, two
divisions and five steps, the trailing pair of graded feeds is non-increasing. -/
theorem C8_witness :
    ∃ a b,
      (gradedSpeeds 100 0.6 2 ((100 * 2 + 100 * 0.6) / ((2 : ℕ) : ℚ))
          ((2 : ℕ) : ℚ) 5 5).get? 3 = some a ∧
      (gradedSpeeds 100 0.6 2 ((100 * 2 + 100 * 0.6) / ((2 : ℕ) : ℚ))
          ((2 : ℕ) : ℚ) 5 5).get? 4 = some b ∧
      b ≤ a :=
  (C8_ramp_monotonicity 100 0.6 2 5 2 5 (by decide) (by decide) (by norm_num)
    (by norm_num) (by norm_num) (by norm_num)).2.1 3 (by decide) (by decide)

/-- C9: in a layer whose wall list is bound by `;LAYER:0`, a fill motion
line whose target equals the current `lastPosition` (`fullLength = 0`, hence
`segmentSteps = 0`) makes
`extrudeLengthPERsegment = (0.006584 * fullSegmentLength) / segmentSteps`
raise `ZeroDivisionError`; the short-move policy is never reached. -/
theorem C9_zero_length_crash :
    execute cfgLines [";LAYER:0\n;TYPE:FILL\nG1 F100\nG0 X5 Y5\nG1 X5 Y5 E1"] =
      .error .zeroDivision := by
  with_unfolding_all rfl

/-- The marker scans never touch `current_speed`. -/
theorem applyMarkers_speed (st : St) (line : String) :
    (applyMarkers st line).current_speed = st.current_speed := by
  unfold applyMarkers
  split_ifs <;> rfl

/-- The marker scans never touch `lastPosition`. -/
theorem applyMarkers_pos (st : St) (line : String) :
    (applyMarkers st line).lastPosition = st.lastPosition := by
  unfold applyMarkers
  split_ifs <;> rfl

/-- On a line that is neither wall marker, the section is unchanged by the
marker scans. -/
theorem applyMarkers_section (st : St) (line : String)
    (h1 : is_innerwall line = false) (h2 : is_outerwall line = false) :
    (applyMarkers st line).currentSection = st.currentSection := by
  simp only [applyMarkers, h1, h2, Bool.false_eq_true, if_false]
  split_ifs <;> rfl

/-- `fillMove` reads `current_speed` unconditionally (line 452 computes the
speed deficit from it before any branching on grading): with the feed rate
still unset and the earlier fault points passed, it aborts with
`UnboundLocalError`. -/
theorem fillMove_unbound_speed (cfg : Config) (walls : Option (List Segment))
    (lastPos p : Point2D) (split : List String) (head : String) (tok : String) (v : ℚ)
    (h1 : (split.filter (fun element => hasSub element "E")).getLast? = some tok)
    (h2 : parseNum (tok.drop 1) = some v)
    (hlit : cfg.variable_segment_lengh / cfg.division_nr ≠ 0)
    (hlen : two_points_distance lastPos p ≠ 0) :
    fillMove cfg walls none lastPos p split head = .error .unboundLocal := by
  have hss : two_points_distance lastPos p /
      (cfg.variable_segment_lengh / cfg.division_nr) ≠ 0 :=
    div_ne_zero hlen hlit
  simp only [fillMove, h1, h2, if_neg hlit, if_neg hss, if_neg hlen]

/-- C10: processing a fill-section motion line that carries X, Y and E but no
F field, while `current_speed` is still unset, aborts the transformation with
an unbound-variable failure — for any configuration, so in particular even
when speed grading is disabled.  (The hypotheses state that the line parses
and that the earlier fault points of the block do not fire first: the move
has nonzero length and the step length is nonzero.) -/
theorem C10_unbound_feed_rate (cfg : Config) (st : St) (line : String) (p : Point2D)
    (hsec : st.currentSection = .INFILL)
    (hspeed : st.current_speed = none)
    (hnoF : hasSub line "F" = false)
    (hG1 : hasSub line "G1" = true) (hX : hasSub line "X" = true)
    (hY : hasSub line "Y" = true) (hE : hasSub line "E" = true)
    (hiw : is_innerwall line = false) (how : is_outerwall line = false)
    (hinf : is_infill line = false)
    (hpat : fill_type cfg.infillpattern = 1)
    (hxy : getXY line = .ok p)
    (hlen : two_points_distance st.lastPosition p ≠ 0)
    (hlit : cfg.variable_segment_lengh / cfg.division_nr ≠ 0)
    (htok : ∃ tok v,
      ((line.splitOn " ").filter (fun element => hasSub element "E")).getLast? = some tok ∧
      parseNum (tok.drop 1) = some v) :
    processLine cfg st line = .error .unboundLocal := by
  obtain ⟨tok, v, htok1, htok2⟩ := htok
  have hm_speed := applyMarkers_speed st line
  have hm_pos := applyMarkers_pos st line
  have hm_sec := applyMarkers_section st line hiw how
  have hrec : innerWallRecord (applyMarkers st line) line = .ok (applyMarkers st line) := by
    unfold innerWallRecord
    rw [hm_sec, hsec]
    simp
  have hfeed : infillFeedLine (applyMarkers st line) line =
      .ok (applyMarkers st line, "") := by
    unfold infillFeedLine
    simp [hnoF]
  have hfm : fillMove cfg (applyMarkers st line).perimeterSegments
      (applyMarkers st line).current_speed (applyMarkers st line).lastPosition p
      (line.splitOn " ") "" = .error .unboundLocal := by
    rw [hm_speed, hspeed, hm_pos]
    exact fillMove_unbound_speed cfg _ _ p _ "" tok v htok1 htok2 hlit hlen
  have hmot : infillMotion cfg (applyMarkers st line) line "" = .error .unboundLocal := by
    unfold infillMotion
    simp only [hE, hG1, hX, hY, true_and, and_self, if_true, hxy, ok_bind, hpat,
      if_pos rfl, hfm, error_bind]
  simp only [processLine, hrec, ok_bind, hinf, Bool.false_eq_true, if_false,
    hm_sec, hsec, if_pos rfl, hfeed, hmot, error_bind]
  simp

/-- C10, witness: a concrete fill-section motion line with no F field in a
state whose feed rate is unset. -/
theorem C10_witness :
    processLine cfgLines
      { currentSection := .INFILL, lastPosition := ⟨0, 0⟩,
        perimeterSegments := none, current_speed := none } "G1 X3 Y4 E1" =
      .error .unboundLocal := by
  refine C10_unbound_feed_rate cfgLines _ "G1 X3 Y4 E1" ⟨3, 4⟩ rfl rfl
    (by with_unfolding_all rfl) (by with_unfolding_all rfl)
    (by with_unfolding_all rfl) (by with_unfolding_all rfl)
    (by with_unfolding_all rfl) (by with_unfolding_all rfl)
    (by with_unfolding_all rfl) (by with_unfolding_all rfl)
    (by with_unfolding_all rfl) (by with_unfolding_all rfl) ?_ ?_ ?_
  · have h : two_points_distance (⟨0, 0⟩ : Point2D) ⟨3, 4⟩ = 5 := by
      with_unfolding_all rfl
    rw [h]
    norm_num
  · have h : cfgLines.variable_segment_lengh / cfgLines.division_nr = 1.5 := by
      with_unfolding_all rfl
    rw [h]
    norm_num
  · exact ⟨"E1", 1, by with_unfolding_all rfl, by with_unfolding_all rfl⟩

end LVI
